import Mathlib

/-!
Verification of the FreeGSNKE numerical engine against its specification.

The Python sources are shallowly embedded: numpy arrays become `List ℚ`
(or `Fin d → ℚ` / `Matrix (Fin d) (Fin d) ℚ` where matrix algebra matters),
stateful methods become explicit state-passing functions, and calls into
external collaborators (freegs multigrid solver, profile objects, Green's
kernels) or into repository modules not present under src/ (nk_solver_H,
simplified_solve, linear_solve, limiter_func, circuit_eq_metal) are
parameters ("oracles") of the embedding.  All definitions are executable.
-/

/-! ## Small vector helpers (pointwise operations on `List ℚ`) -/

/-- Pointwise addition of two vectors (numpy `a + b`). -/
def vadd (a b : List ℚ) : List ℚ := List.zipWith (· + ·) a b

/-- Pointwise subtraction of two vectors (numpy `a - b`). -/
def vsub (a b : List ℚ) : List ℚ := List.zipWith (· - ·) a b

/-- Scalar multiple of a vector (numpy `c * a`). -/
def vscale (c : ℚ) (a : List ℚ) : List ℚ := a.map (c * ·)

/-- Pointwise absolute value (numpy `abs(a)`). -/
def vabs (a : List ℚ) : List ℚ := a.map (fun x => |x|)

/-- Maximum entry of a vector, with default 0 on the empty list (numpy `np.amax`). -/
def lmax (a : List ℚ) : ℚ := a.foldr max 0

/-- Minimum entry of a vector, with default 0 on the empty list (numpy `np.amin`). -/
def lmin (a : List ℚ) : ℚ := a.foldr min 0

/-- Maximum absolute entry (numpy `np.amax(np.abs(a))`). -/
def maxAbs (a : List ℚ) : ℚ := lmax (vabs a)

/-- Sum of the entries (numpy `np.sum`). -/
def lsum (a : List ℚ) : ℚ := a.sum

/-- Last entry of a vector, 0 on the empty list (numpy `a[-1]`). -/
def vlast (a : List ℚ) : ℚ := a.getD (a.length - 1) 0

/-- numpy `np.any(a > t)`. -/
def anyGt (a : List ℚ) (t : ℚ) : Bool := a.any (fun x => decide (t < x))

/-! ## Implicit-Euler stepper (`implicit_euler.py`) -/

/-- Executable matrix inverse over ℚ, mirroring `np.linalg.inv`:
`A⁻¹ = det(A)⁻¹ • adjugate(A)`; agrees with Mathlib's `Matrix.inv`. -/
def linalg_inv {d : ℕ} (A : Matrix (Fin d) (Fin d) ℚ) : Matrix (Fin d) (Fin d) ℚ :=
  (A.det)⁻¹ • A.adjugate

/-- Python `int(x)` truncation toward zero. -/
def py_int (x : ℚ) : ℤ := if 0 ≤ x then ⌊x⌋ else -⌊-x⌋

/-- Source: `self.n_steps = int(full_timestep/max_internal_timestep + .999)`
(`implicit_euler.py`, line 43). -/
def n_steps_calc (full_timestep max_internal_timestep : ℚ) : ℤ :=
  py_int (full_timestep / max_internal_timestep + 999/1000)

/-- State of `implicit_euler_solver` (`implicit_euler.py`). -/
structure implicit_euler_solver (d : ℕ) where
  Mmatrix : Matrix (Fin d) (Fin d) ℚ
  Mmatrixm1 : Matrix (Fin d) (Fin d) ℚ
  Rmatrix : Matrix (Fin d) (Fin d) ℚ
  full_timestep : ℚ
  max_internal_timestep : ℚ
  n_steps : ℕ
  internal_timestep : ℚ
  inverse_operator : Matrix (Fin d) (Fin d) ℚ

/-- Source: `calc_inverse_operator`: `inverse_operator = inv(eye + internal_timestep * Mm1 @ R)`. -/
def calc_inverse_operator {d : ℕ} (s : implicit_euler_solver d) : implicit_euler_solver d :=
  { s with inverse_operator :=
      linalg_inv (1 + s.internal_timestep • (s.Mmatrixm1 * s.Rmatrix)) }

/-- Source: `set_timesteps`: stores the timesteps, computes `n_steps` and
`internal_timestep = full_timestep / n_steps`, and recomputes the inverse operator.
The iteration count is the Python int used by `range`, clamped at 0 as `range` does. -/
def implicit_euler_set_timesteps {d : ℕ} (s : implicit_euler_solver d)
    (full_timestep max_internal_timestep : ℚ) : implicit_euler_solver d :=
  let n : ℕ := (n_steps_calc full_timestep max_internal_timestep).toNat
  calc_inverse_operator
    { s with
      full_timestep := full_timestep
      max_internal_timestep := max_internal_timestep
      n_steps := n
      internal_timestep := full_timestep / (n : ℚ) }

/-- Source: `__init__` of `implicit_euler_solver`. -/
def implicit_euler_mk {d : ℕ} (Mmatrix Rmatrix : Matrix (Fin d) (Fin d) ℚ)
    (full_timestep max_internal_timestep : ℚ) : implicit_euler_solver d :=
  implicit_euler_set_timesteps
    { Mmatrix := Mmatrix
      Mmatrixm1 := linalg_inv Mmatrix
      Rmatrix := Rmatrix
      full_timestep := 0
      max_internal_timestep := 0
      n_steps := 0
      internal_timestep := 0
      inverse_operator := 0 }
    full_timestep max_internal_timestep

/-- Source: `set_Mmatrix`: replaces M, recomputes `Mmatrixm1` and the inverse operator. -/
def implicit_euler_set_Mmatrix {d : ℕ} (s : implicit_euler_solver d)
    (Mmatrix : Matrix (Fin d) (Fin d) ℚ) : implicit_euler_solver d :=
  calc_inverse_operator { s with Mmatrix := Mmatrix, Mmatrixm1 := linalg_inv Mmatrix }

/-- Source: `set_Rmatrix`: replaces R and recomputes the inverse operator. -/
def implicit_euler_set_Rmatrix {d : ℕ} (s : implicit_euler_solver d)
    (Rmatrix : Matrix (Fin d) (Fin d) ℚ) : implicit_euler_solver d :=
  calc_inverse_operator { s with Rmatrix := Rmatrix }

/-- Source: `internal_stepper`: `Itpdt = inverse_operator @ (Mm1forcing*internal_timestep + It)`. -/
def internal_stepper {d : ℕ} (s : implicit_euler_solver d) (It Mm1forcing : Fin d → ℚ) :
    Fin d → ℚ :=
  s.inverse_operator.mulVec (s.internal_timestep • Mm1forcing + It)

/-- Source: `full_stepper`: computes `Mm1forcing = Mm1 @ forcing` once, then applies
`internal_stepper` exactly `n_steps` times. -/
def full_stepper {d : ℕ} (s : implicit_euler_solver d) (It forcing : Fin d → ℚ) :
    Fin d → ℚ :=
  let Mm1forcing := s.Mmatrixm1.mulVec forcing
  (fun I => internal_stepper s I Mm1forcing)^[s.n_steps] It

/-! ## Static GS Newton–Krylov solver (`newtonkrylov.py`) -/

/-- Equilibrium data mutated by `NewtonKrylov.solve`: the plasma flux and the
plasma current `eq._current`. -/
structure GSEquilibrium where
  plasma_psi : List ℚ
  eq_current : ℚ

/-- State threaded through the `solve` loop: the trial flux, the last
toroidal current density stored on the profile object (`profiles.jtor`, set by
every evaluation of `profiles.Jtor` inside `freeboundary`), and the residual. -/
structure NKSolveState where
  psi : List ℚ
  jtor : List ℚ
  res0 : List ℚ

/-- Source: `_F`: evaluates `freeboundary` (recording `jtor = profiles.Jtor(R, Z, tokamak_psi
+ plasma_psi)`) and returns `(jtor, plasma_psi - solver(psi_boundary, rhs))`.
The boundary Green's sums and the rhs are functions of `jtor` alone on a fixed
grid, so the external multigrid solver composed with them is one oracle
`lins : jtor ↦ solver output`; the profile collaborator is the oracle `Jt`. -/
def NK_F (Jt lins : List ℚ → List ℚ) (tokamak_psi psi : List ℚ) : List ℚ × List ℚ :=
  let j := Jt (vadd tokamak_psi psi)
  (j, vsub psi (lins j))

/-- Source: `rel_change = np.amax(np.abs(res0)) / (np.amax(psi) - np.amin(psi))`. -/
def rel_change_calc (psi res : List ℚ) : ℚ := maxAbs res / (lmax psi - lmin psi)

/-- The `while rel_change>rel_convergence and it<max_iter` loop of
`NewtonKrylov.solve`; `fuel` counts the remaining iterations (`max_iter - it`).
`dpsiO` abstracts `Arnoldi_iteration` followed by `dpsi` (the external NK engine);
its internal `_F` probes only overwrite `profiles.jtor` values that are themselves
overwritten by the `res0 = _F(trial_plasma_psi)` recomputation modelled here. -/
def NK_solve_loop (Jt lins : List ℚ → List ℚ) (tokamak_psi : List ℚ)
    (dpsiO : NKSolveState → List ℚ) (rel_convergence : ℚ) :
    ℕ → NKSolveState → NKSolveState
  | 0, s => s
  | fuel + 1, s =>
    if rel_convergence < rel_change_calc s.psi s.res0 then
      let psi1 := vadd s.psi (dpsiO s)
      let t := NK_F Jt lins tokamak_psi psi1
      NK_solve_loop Jt lins tokamak_psi dpsiO rel_convergence fuel
        ⟨psi1, t.1, t.2⟩
    else s

/-- Source: `NewtonKrylov.solve`: computes the initial residual, runs the NK loop, then
assigns the final flux to the equilibrium and sets
`eq._current = np.sum(profiles.jtor) * self.dRdZ`.  Returns the updated
equilibrium together with the final `profiles.jtor`. -/
def NK_solve (Jt lins : List ℚ → List ℚ) (dpsiO : NKSolveState → List ℚ)
    (tokamak_psi : List ℚ) (rel_convergence : ℚ) (max_iter : ℕ) (dRdZ : ℚ)
    (eq : GSEquilibrium) : GSEquilibrium × List ℚ :=
  let t0 := NK_F Jt lins tokamak_psi eq.plasma_psi
  let s := NK_solve_loop Jt lins tokamak_psi dpsiO rel_convergence max_iter
    ⟨eq.plasma_psi, t0.1, t0.2⟩
  ({ plasma_psi := s.psi, eq_current := lsum s.jtor * dRdZ }, s.jtor)

/-! ## Machine mutual inductances (`MASTU_coils.py`, lines 1353-1371) -/

/-- One conductor: filament coordinates and the aligned signed polarities
(`coils_dict[label]['coords']`, `coils_dict[label]['polarity']`). -/
structure CoilSpec where
  coords : List (ℚ × ℚ)
  polarity : List ℚ

/-- Source: `coil_self_ind[i,j] = np.sum(greenm)` scaled by `coil_self_ind *= 2*np.pi`,
where `greenm[b,a] = Greens(R_i[a], Z_i[a], R_j[b], Z_j[b]) * polarity_j[b] *
polarity_i[a]`.  The Green's kernel (from the external `freegs.gradshafranov`)
is the parameter `G`; the scalar `twopi` stands for the constant `2*np.pi`
(kept abstract so that the definition is executable; the theorem instantiates
it with `2 * Real.pi`).  The rational polarity products act on the Green's
values through the `ℚ`-algebra structure. -/
def coil_self_ind {α : Type} [CommRing α] [Algebra ℚ α] (twopi : α)
    (G : ℚ × ℚ → ℚ × ℚ → α) (coils : List CoilSpec) (i j : ℕ) : α :=
  let ci := coils.getD i ⟨[], []⟩
  let cj := coils.getD j ⟨[], []⟩
  twopi * ∑ a ∈ Finset.range ci.coords.length, ∑ b ∈ Finset.range cj.coords.length,
    (ci.polarity.getD a 0 * cj.polarity.getD b 0) •
      G (ci.coords.getD a (0, 0)) (cj.coords.getD b (0, 0))

/-! ## Mode removal masks (`nonlinear_solve.py`, lines 287-308) -/

/-- Source: `np.sum(c_i^2)`: the squared Euclidean norm of a Jacobian column. -/
def sumSq (c : List ℚ) : ℚ := (c.map (fun x => x * x)).sum

/-- Decides `np.linalg.norm(c) > t` exactly over ℚ: for `t ≥ 0` this is
`t² < Σ c_i²`, and for `t < 0` it is always true (see `norm_gt_iff`). -/
def norm_gt (c : List ℚ) (t : ℚ) : Bool :=
  if t < 0 then true else decide (t * t < sumSq c)

/-- The selection mask built for `mode_removal=True`:
`mask = np.linalg.norm(dIydI, axis=0) > min_dIy_dI` followed by
`np.concatenate((np.ones(n_active_coils), mask[n_active_coils:-1], np.ones(1)))`.
`dIydI` is given as its list of columns. -/
def selected_modes_mask (dIydI : List (List ℚ)) (n_active_coils : ℕ)
    (min_dIy_dI : ℚ) : List Bool :=
  let mask := dIydI.map (fun c => norm_gt c min_dIy_dI)
  List.replicate n_active_coils true ++ (mask.drop n_active_coils).dropLast ++ [true]

/-! ## Snapshot loading (`equilibrium_update.py`, lines 178-243) -/

/-- Coil names as character sequences (Python strings are sliced by
characters in `coil[:7]`). -/
abbrev CoilName := List Char

/-- The literal `"passive"`. -/
def passiveWord : CoilName := ['p', 'a', 's', 's', 'i', 'v', 'e']

/-- Source: `[coil for coil in coils if coil[:7] != "passive"]`. -/
def activeNames (names : List CoilName) : List CoilName :=
  names.filter (fun n => n.take 7 ≠ passiveWord)

/-- A persisted equilibrium snapshot: `{coil_currents: name -> current,
plasma_psi: 2-D array}` (the dict preserves insertion order). -/
structure EqSnapshot where
  coil_currents : List (CoilName × ℚ)
  plasma_psi : List (List ℚ)

/-- Shape `(nx, ny)` of a 2-D array stored as rows. -/
def gridShape (g : List (List ℚ)) : ℕ × ℕ := (g.length, (g.headD []).length)

/-- Source: `initialize_plasma_psi`: if the stored shape disagrees with the current
grid, interpolate (`scipy.interpolate.RectBivariateSpline`, bicubic by default
— external, the oracle `interp`), then assign `self.plasma_psi = 2 * plasma_psi`. -/
def initialize_plasma_psi (interp : List (List ℚ) → List (List ℚ))
    (cur_psi plasma_psi : List (List ℚ)) : List (List ℚ) :=
  let pp := if gridShape plasma_psi ≠ gridShape cur_psi then interp plasma_psi
            else plasma_psi
  pp.map (fun row => row.map (fun x => 2 * x))

/-- Source: `initialize_from_equilibrium`: validates that the active coil names on file
equal those of the machine (list equality, order included); on success assigns
the active coil currents (dict lookup; present because the name lists agree)
and the rescaled plasma flux; on failure prints a warning and leaves both the
tokamak currents and the plasma flux unchanged.  Returns (tokamak currents,
plasma flux, warned). -/
def initialize_from_equilibrium (interp : List (List ℚ) → List (List ℚ))
    (tokamak : List (CoilName × ℚ)) (cur_psi : List (List ℚ)) (snap : EqSnapshot) :
    List (CoilName × ℚ) × List (List ℚ) × Bool :=
  let active_coils_on_file := activeNames (snap.coil_currents.map Prod.fst)
  let active_coils_in_tokamak := activeNames (tokamak.map Prod.fst)
  if active_coils_on_file = active_coils_in_tokamak then
    (tokamak.map (fun nc =>
        if nc.1.take 7 ≠ passiveWord then (nc.1, (snap.coil_currents.lookup nc.1).getD nc.2)
        else nc),
     initialize_plasma_psi interp cur_psi snap.plasma_psi,
     false)
  else
    (tokamak, cur_psi, true)

/-! ## Automatic timestep from the linear growth rate
(`nonlinear_solve.py`, lines 330-353 and 799-831) -/

/-- The timestep fields reset by `nl_solver.reset_timestep`: its own
`dt_step`/`max_internal_timestep` and those pushed into the metal-current,
simplified and linearised sub-solvers. -/
structure NLTimestepState where
  dt_step : ℚ
  max_internal_timestep : ℚ
  metal_full : ℚ
  metal_max : ℚ
  simplified_full : ℚ
  simplified_max : ℚ
  lin_full : ℚ
  lin_max : ℚ

/-- Source: `reset_timestep(full_timestep, max_internal_timestep)`.  Note the source
passes `max_internal_timestep=full_timestep` to `simplified_solver_J1`. -/
def nl_reset_timestep (s : NLTimestepState) (full_timestep max_internal_timestep : ℚ) :
    NLTimestepState :=
  { s with
    dt_step := full_timestep
    max_internal_timestep := max_internal_timestep
    metal_full := full_timestep
    metal_max := max_internal_timestep
    simplified_full := full_timestep
    simplified_max := full_timestep
    lin_full := full_timestep
    lin_max := max_internal_timestep }

/-- Modelled from the spec: `linear_solve.calculate_linear_growth_rate` (the
module `linear_solve.py` is not under src/) finds `growth_rates`, the unstable
(positive) eigenvalues of the linearised system, and reports
`instability_timescale`, their elementwise inverses ("each with a
characteristic decay time 1/Λ"; "the solver's reported instability timescale τ
equals the inverse dominant positive eigenvalue").  The eigenvalue list is a
parameter here; the timescale is its elementwise inverse. -/
def instability_timescale (growth_rates : List ℚ) : List ℚ :=
  growth_rates.map (fun g => 1 / g)

/-- Tail of `nl_solver.__init__` for `automatic_timestep=(a, b)`:
`if len(growth_rates): dt_step = abs(instability_timescale[0] * a);
reset_timestep(full_timestep=dt_step, max_internal_timestep=dt_step/b)`,
else the timesteps are left unchanged. -/
def automatic_timestep_reset (s : NLTimestepState) (growth_rates : List ℚ)
    (a b : ℚ) : NLTimestepState :=
  if growth_rates ≠ [] then
    let dt_step := |(instability_timescale growth_rates).getD 0 0 * a|
    nl_reset_timestep s dt_step (dt_step / b)
  else s

/-! ## `Equilibrium.adjust_psi_plasma` (`equilibrium_update.py`, lines 41-131) -/

/-- Outcome of one `critical.find_critical` call (external freegs routine):
either it raises (no viable O-point) or it returns the critical points, of
which the embedding keeps the number of X-points found. -/
inductive CritResult where
  | exc : CritResult
  | ok (n_xpt : ℕ) : CritResult
deriving DecidableEq

/-- Result of `adjust_psi_plasma`: either the method returns normally, with
`self.plasma_psi` as recorded, or it raises `UnboundLocalError` when the
guard `(xpoint_flag == False) and (n_exp < 10)` on line 96 evaluates the
name `n_exp` before any assignment to it. -/
inductive AdjustOutcome where
  | ret (plasma_psi : List (List ℚ)) : AdjustOutcome
  | unboundLocalError : AdjustOutcome
deriving DecidableEq

/-- Pointwise addition of 2-D arrays (`tokamak_psi + plasma_psi`). -/
def madd (a b : List (List ℚ)) : List (List ℚ) :=
  List.zipWith (List.zipWith (· + ·)) a b

/-- Scalar multiple of a 2-D array. -/
def mscale (c : ℚ) (a : List (List ℚ)) : List (List ℚ) :=
  a.map (List.map (c * ·))

/-- The scale-up stage: `while (n_up < 10) and (opoint_flag == False): try
find_critical ... except: plasma_psi *= 1.5; n_up += 1`.  Invoked with
`fuel = 10`, `n_up = 0`; returns the final `n_up`, `plasma_psi` and the
X-point count when an O-point was found (`none` when not). -/
def scale_up_loop (find_crit : List (List ℚ) → CritResult)
    (tokamak_psi : List (List ℚ)) :
    ℕ → ℕ → List (List ℚ) → ℕ × List (List ℚ) × Option ℕ
  | 0, n_up, psi => (n_up, psi, none)
  | fuel + 1, n_up, psi =>
    match find_crit (madd tokamak_psi psi) with
    | .ok k => (n_up, psi, some k)
    | .exc => scale_up_loop find_crit tokamak_psi fuel (n_up + 1) (mscale (3/2) psi)

/-- The scale-down stage: `while (xpoint_flag == False) and (n_down <
n_down_max): n_plasma_psi /= 1.1; n_down += 1; try find_critical ... except:
break`.  `fuel = n_down_max`; returns the final `xpoint_flag`. -/
def scale_down_loop (find_crit : List (List ℚ) → CritResult)
    (tokamak_psi : List (List ℚ)) :
    ℕ → List (List ℚ) → Bool
  | 0, _ => false
  | fuel + 1, n_psi =>
    let n_psi := mscale (10/11) n_psi
    match find_crit (madd tokamak_psi n_psi) with
    | .exc => false
    | .ok k => if 0 < k then true else scale_down_loop find_crit tokamak_psi fuel n_psi

/-- Source: `n_down_max = np.floor(n_up + np.log(1.5) - np.log(1.1))`.  Since
`0 < log 1.5 - log 1.1 < 1`, the floor equals `n_up` exactly (lemma
`log_ratio_floor` below); the embedding uses that value so that the loop
bound stays executable. -/
def n_down_max (n_up : ℕ) : ℕ := n_up

/-- Source: `Equilibrium.adjust_psi_plasma`.  Control flow of the source:
scale-up stage; if no O-point was produced, print advice and return.  If the
X-point list is non-empty, return (line 130).  Otherwise run the scale-down
stage on a copy `n_plasma_psi`; then line 96 evaluates
`(xpoint_flag == False) and (n_exp < 10)`: if `xpoint_flag` is `False` this
reads the unassigned local `n_exp` and raises `UnboundLocalError`; if
`xpoint_flag` is `True` the conjunction short-circuits, the block (including
the `self.plasma_psi = n_plasma_psi.copy()` assignment on line 128) is
skipped, and the method returns with `self.plasma_psi` still at its scale-up
value. -/
def adjust_psi_plasma (find_crit : List (List ℚ) → CritResult)
    (tokamak_psi psi0 : List (List ℚ)) : AdjustOutcome :=
  let r := scale_up_loop find_crit tokamak_psi 10 0 psi0
  match r.2.2 with
  | none => .ret r.2.1
  | some k =>
    if 0 < k then .ret r.2.1
    else
      if scale_down_loop find_crit tokamak_psi (n_down_max r.1) r.2.1 then
        .ret r.2.1
      else
        .unboundLocalError

/-! ## Non-linear evolutive stepper (`nonlinear_solve.py`, `nl_solver`)

The numeric sub-solvers live in modules not under src/ (`nk_solver_H`,
`simplified_solve`, `linear_solve`, `GSstaticsolver`, `limiter_func`,
`circuit_eq_metal`) or in external packages (freegs); they appear as the
oracle fields below.  The orchestration — `set_linear_solution`, the
`F_function`s, the residual calculations, the `while control` loop and
`step_complete_assign` — is translated from `nonlinear_solve.py`.  The static
GS tolerances (`rtol_NK`) passed to the sub-solvers are absorbed into the
oracles. -/

structure NLOracles where
  /-- Source: `linearised_sol.stepper(It, active_voltage_vec, ...)`. -/
  lin_stepper : List ℚ → List ℚ → List ℚ
  /-- Source: `evol_metal_curr.IdtoIvessel(Id)`. -/
  vessel : List ℚ → List ℚ
  /-- Source: `tokamak.calcPsiFromGreens(pgreen)` as a function of the coil currents. -/
  greens : List ℚ → List ℚ
  /-- Source: `profiles2.Jtor(R, Z, psi_total)` given the assigned plasma current `Ip`. -/
  jtor : List ℚ → ℚ → List ℚ
  /-- Source: `limiter_handler.hat_Iy_from_jtor(jtor)`. -/
  hat_from_jtor : List ℚ → List ℚ
  /-- Source: `limiter_handler.Iy_from_jtor(jtor)`. -/
  Iy_from_jtor : List ℚ → List ℚ
  /-- Source: `limiter_handler.normalize_sum(Iy)`. -/
  normalize_sum : List ℚ → List ℚ
  /-- Source: `make_broad_hatIy(hatIy1)`; second argument is `self.hatIy` (the blend
  and optional `nbroad` convolution are inside). -/
  make_broad : List ℚ → List ℚ → List ℚ
  /-- Source: `simplified_solver_J1.stepper(It, hatIy_left, hatIy_0, hatIy_1,
  active_voltage_vec)`. -/
  simp_stepper : List ℚ → List ℚ → List ℚ → List ℚ → List ℚ → List ℚ
  /-- plasma flux produced by `NK.forward_solve` at the given currents. -/
  gs_psi : List ℚ → List ℚ
  /-- Source: `profiles2.jtor` after that same forward solve. -/
  gs_jtor : List ℚ → List ℚ
  /-- Source: `NK.F_function(plasma_psi, tokamak_psi, profiles2)`: static-GS residual. -/
  gsres : List ℚ → List ℚ → List ℚ
  /-- trial fluxes probed by `psi_nk_solver.Arnoldi_iteration(x0, dx=R0, ...)`;
  each probe evaluates `F_function_psi`. -/
  psi_nk_probes : List ℚ → List ℚ → List (List ℚ)
  /-- the update `psi_nk_solver.dx` accepted after that Arnoldi run. -/
  psi_nk_dx : List ℚ → List ℚ → List ℚ
  /-- trial current vectors probed by `currents_nk_solver.Arnoldi_iteration`. -/
  curr_nk_probes : List ℚ → List ℚ → List (List ℚ)
  /-- the update `currents_nk_solver.dx` accepted after that Arnoldi run. -/
  curr_nk_dx : List ℚ → List ℚ → List ℚ

structure NLParams where
  dt_step : ℚ
  plasma_norm_factor : ℚ
  target_relative_tol_currents : ℚ
  target_relative_tol_GS : ℚ
  working_relative_tol_GS : ℚ
  blend_GS : ℚ
  curr_eps : ℚ
  max_no_NK_psi : ℚ
deriving DecidableEq

/-- The attributes of `nl_solver` (and of the objects it owns) read or written
by `nlstepper`.  `eq1`/`profiles1` hold the durable equilibrium;
`eq2`/`profiles2` are the private working copies. -/
structure NLState where
  eq1_coil_currents : List ℚ
  eq1_plasma_psi : List ℚ
  eq1_current : ℚ
  profiles1_Ip : ℚ
  profiles1_jtor : List ℚ
  currents_vec : List ℚ
  currents_vec_m1 : List ℚ
  time : ℚ
  step_no : ℤ
  Iy : List ℚ
  Iy_m1 : List ℚ
  hatIy : List ℚ
  trial_currents : List ℚ
  trial_plasma_psi : List ℚ
  tokamak_psi : List ℚ
  eq2_coil_currents : List ℚ
  eq2_plasma_psi : List ℚ
  eq2_current : ℚ
  profiles2_Ip : ℚ
  profiles2_jtor : List ℚ
  vessel_currents_vec : List ℚ
  broad_hatIy : List ℚ
  hatIy1_last : List ℚ
  curr_step : List ℚ
  d_plasma_psi_step : ℚ
  rtol_NK : ℚ
  res_curr : List ℚ
  rel_curr_res : List ℚ
  r_res_GS : ℚ
  control : Bool
  control_GS : Bool
deriving DecidableEq

/-- The durable equilibrium state named by the frame claim: `eq1`'s coil
currents and plasma flux, `currents_vec`, `time` and `step_no`. -/
def durable (s : NLState) : List ℚ × List ℚ × List ℚ × ℚ × ℤ :=
  (s.eq1_coil_currents, s.eq1_plasma_psi, s.currents_vec, s.time, s.step_no)

/-- Source: `assign_currents(currents_vec, eq=eq2, profile=profiles2)`:
`eq._current = plasma_norm_factor * currents_vec[-1]`, same for `profile.Ip`;
`vessel_currents_vec = IdtoIvessel(currents_vec[:-1])` and assignment of the
vessel currents to the tokamak coils of eq2. -/
def assign_currents_eq2 (o : NLOracles) (p : NLParams) (s : NLState)
    (currents_vec : List ℚ) : NLState :=
  let ip := p.plasma_norm_factor * vlast currents_vec
  let vcv := o.vessel currents_vec.dropLast
  { s with eq2_current := ip, profiles2_Ip := ip,
           vessel_currents_vec := vcv, eq2_coil_currents := vcv }

/-- Source: `calculate_hatIy(trial_currents, plasma_psi)`: assigns the currents to the
private copies, recomputes `tokamak_psi` from the eq2 coil currents, evaluates
`jtor_ = profiles2.Jtor(R, Z, tokamak_psi + plasma_psi)` (recorded on
profiles2) and returns the normalised distribution. -/
def calculate_hatIy (o : NLOracles) (p : NLParams) (s : NLState)
    (trial_currents plasma_psi : List ℚ) : NLState × List ℚ :=
  let s1 := assign_currents_eq2 o p s trial_currents
  let s2 := { s1 with tokamak_psi := o.greens s1.eq2_coil_currents }
  let j := o.jtor (vadd s2.tokamak_psi plasma_psi) s2.profiles2_Ip
  ({ s2 with profiles2_jtor := j }, o.hat_from_jtor j)

/-- Source: `currents_from_hatIy(hatIy1, active_voltage_vec)`: broadens the guess and
runs the simplified circuit solver with `It = self.currents_vec`. -/
def currents_from_hatIy (o : NLOracles) (s : NLState)
    (hatIy1 active_voltage_vec : List ℚ) : NLState × List ℚ :=
  let s1 := { s with broad_hatIy := o.make_broad hatIy1 s.hatIy }
  (s1, o.simp_stepper s1.currents_vec s1.broad_hatIy s1.hatIy hatIy1 active_voltage_vec)

/-- Source: `F_function_curr(trial_currents, active_voltage_vec)`: residual
`currents_from_hatIy(calculate_hatIy(trial_currents, trial_plasma_psi)) -
trial_currents`; records `hatIy1_last`. -/
def F_function_curr (o : NLOracles) (p : NLParams) (s : NLState)
    (trial_currents active_voltage_vec : List ℚ) : NLState × List ℚ :=
  let t1 := calculate_hatIy o p s trial_currents s.trial_plasma_psi
  let s1 := { t1.1 with hatIy1_last := t1.2 }
  let t2 := currents_from_hatIy o s1 t1.2 active_voltage_vec
  (t2.1, vsub t2.2 trial_currents)

/-- Source: `assign_currents_solve_GS(currents_vec, rtol_NK)`: assigns the currents to
the private copies and solves static GS there (`NK.forward_solve(eq2,
profiles2, rtol)`), updating `eq2.plasma_psi` and `profiles2.jtor`. -/
def assign_currents_solve_GS (o : NLOracles) (p : NLParams) (s : NLState)
    (currents_vec : List ℚ) : NLState :=
  let s1 := assign_currents_eq2 o p s currents_vec
  { s1 with eq2_plasma_psi := o.gs_psi currents_vec,
            profiles2_jtor := o.gs_jtor currents_vec }

/-- Source: `hatIy1_iterative_cycle(hatIy1, active_voltage_vec, rtol_NK)`. -/
def hatIy1_iterative_cycle (o : NLOracles) (p : NLParams) (s : NLState)
    (hatIy1 active_voltage_vec : List ℚ) : NLState :=
  let t := currents_from_hatIy o s hatIy1 active_voltage_vec
  assign_currents_solve_GS o p t.1 t.2

/-- Source: `F_function_psi(trial_plasma_psi, active_voltage_vec, rtol_NK)`: residual
`eq2.plasma_psi - trial_plasma_psi` after one `hatIy1_iterative_cycle` seeded
from `Jtor(tokamak_psi + trial_plasma_psi)`. -/
def F_function_psi (o : NLOracles) (p : NLParams) (s : NLState)
    (trial_plasma_psi active_voltage_vec : List ℚ) : NLState × List ℚ :=
  let j := o.jtor (vadd s.tokamak_psi trial_plasma_psi) s.profiles2_Ip
  let s1 := { s with profiles2_jtor := j }
  let s2 := hatIy1_iterative_cycle o p s1 (o.hat_from_jtor j) active_voltage_vec
  (s2, vsub s2.eq2_plasma_psi trial_plasma_psi)

/-- Source: `calculate_rel_tolerance_currents(current_residual, curr_eps)`:
`curr_step = abs(trial_currents - currents_vec_m1)` floored at `curr_eps`
(`np.where(curr_step > curr_eps, curr_step, curr_eps)`), then
`abs(current_residual / curr_step)`. -/
def calculate_rel_tolerance_currents (p : NLParams) (s : NLState)
    (current_residual : List ℚ) : NLState × List ℚ :=
  let cs := vabs (vsub s.trial_currents s.currents_vec_m1)
  let flo := cs.map (fun x => if p.curr_eps < x then x else p.curr_eps)
  ({ s with curr_step := flo },
   List.zipWith (fun r d => |r / d|) current_residual flo)

/-- Source: `calculate_rel_tolerance_GS(trial_plasma_psi)`: the max-min spread of
`trial_plasma_psi - eq1.plasma_psi` (recorded as `d_plasma_psi_step`) divides
the max absolute static-GS residual. -/
def calculate_rel_tolerance_GS (o : NLOracles) (s : NLState)
    (trial_plasma_psi : List ℚ) : NLState × ℚ :=
  let step := vsub trial_plasma_psi s.eq1_plasma_psi
  let d := lmax step - lmin step
  let a := maxAbs (o.gsres trial_plasma_psi s.tokamak_psi)
  ({ s with d_plasma_psi_step := d }, a / d)

/-- Source: `step_complete_assign(working_relative_tol_GS, from_linear)`, the commit
phase (`nonlinear_solve.py`, lines 1004-1052). -/
def step_complete_assign (o : NLOracles) (p : NLParams) (s : NLState)
    (from_linear : Bool) : NLState :=
  let s1 := { s with time := s.time + p.dt_step, step_no := s.step_no + 1,
                     currents_vec_m1 := s.currents_vec, Iy_m1 := s.Iy }
  let step := vsub s1.eq2_plasma_psi s1.eq1_plasma_psi
  let s2 := { s1 with d_plasma_psi_step := lmax step - lmin step,
                      currents_vec := s1.trial_currents }
  -- assign_currents(self.currents_vec, self.eq1, self.profiles1)
  let ip := p.plasma_norm_factor * vlast s2.currents_vec
  let vcv := o.vessel s2.currents_vec.dropLast
  let s3 := { s2 with eq1_current := ip, profiles1_Ip := ip,
                      vessel_currents_vec := vcv, eq1_coil_currents := vcv }
  let s4 :=
    if from_linear then
      -- self.profiles1 = deepcopy(self.profiles2); self.eq1 = deepcopy(self.eq2)
      { s3 with profiles1_Ip := s3.profiles2_Ip, profiles1_jtor := s3.profiles2_jtor,
                eq1_plasma_psi := s3.eq2_plasma_psi,
                eq1_coil_currents := s3.eq2_coil_currents,
                eq1_current := s3.eq2_current }
    else
      let s4a := { s3 with eq1_plasma_psi := s3.trial_plasma_psi,
                           profiles1_Ip := vlast s3.trial_currents * p.plasma_norm_factor }
      let s4b := { s4a with tokamak_psi := o.greens s4a.eq1_coil_currents }
      let j1 := o.jtor (vadd s4b.tokamak_psi s4b.trial_plasma_psi) s4b.profiles1_Ip
      { s4b with profiles1_jtor := j1 }
  let iy := o.Iy_from_jtor s4.profiles1_jtor
  let s5 := { s4 with Iy := iy, hatIy := o.normalize_sum iy }
  { s5 with rtol_NK := p.working_relative_tol_GS * s5.d_plasma_psi_step }

/-- Source: `set_linear_solution(active_voltage_vec)`: linearised guess for the
currents, static GS solve at those currents, and
`trial_plasma_psi = eq2.plasma_psi`. -/
def set_linear_solution (o : NLOracles) (p : NLParams) (s : NLState)
    (active_voltage_vec : List ℚ) : NLState :=
  let s1 := { s with trial_currents := o.lin_stepper s.currents_vec active_voltage_vec }
  let s2 := assign_currents_solve_GS o p s1 s1.trial_currents
  { s2 with trial_plasma_psi := s2.eq2_plasma_psi }

/-- The `F_function_psi` evaluations performed inside
`psi_nk_solver.Arnoldi_iteration` at the oracle-chosen probe fluxes. -/
def nl_run_psi_arnoldi (o : NLOracles) (p : NLParams) (s : NLState)
    (x0 res active_voltage_vec : List ℚ) : NLState :=
  (o.psi_nk_probes x0 res).foldl
    (fun st pr => (F_function_psi o p st pr active_voltage_vec).1) s

/-- The `F_function_curr` evaluations performed inside
`currents_nk_solver.Arnoldi_iteration` at the oracle-chosen probe currents. -/
def nl_run_curr_arnoldi (o : NLOracles) (p : NLParams) (s : NLState)
    (x0 res active_voltage_vec : List ℚ) : NLState :=
  (o.curr_nk_probes x0 res).foldl
    (fun st pr => (F_function_curr o p st pr active_voltage_vec).1) s

/-- One cycle of the outer fixed-point loop (`nlstepper`, lines 1564-1670). -/
def nl_cycle (o : NLOracles) (p : NLParams) (active_voltage_vec : List ℚ)
    (s : NLState) : NLState :=
  -- update plasma flux if trial_currents and plasma_flux exceedingly far from GS
  let sA :=
    if s.control_GS then
      let sg := { s with eq2_plasma_psi := o.gs_psi s.eq2_coil_currents,
                         profiles2_jtor := o.gs_jtor s.eq2_coil_currents }
      let blended := vadd (vscale (1 - p.blend_GS) sg.trial_plasma_psi)
        (vscale p.blend_GS sg.eq2_plasma_psi)
      { sg with trial_plasma_psi := blended }
    else s
  -- res_psi = F_function_psi(trial_plasma_psi, ...)
  let tP := F_function_psi o p sA sA.trial_plasma_psi active_voltage_vec
  let sB := tP.1
  let res_psi := tP.2
  let del_res_psi := lmax res_psi - lmin res_psi
  let relative_psi_res := del_res_psi / sB.d_plasma_psi_step
  let sC :=
    if p.target_relative_tol_GS * p.max_no_NK_psi < relative_psi_res then
      let sN := nl_run_psi_arnoldi o p sB sB.trial_plasma_psi res_psi active_voltage_vec
      let newpsi := vadd sN.trial_plasma_psi (o.psi_nk_dx sN.trial_plasma_psi res_psi)
      { sN with trial_plasma_psi := newpsi }
    else sB
  -- res_curr = F_function_curr(trial_currents, ...)
  let tC := F_function_curr o p sC sC.trial_currents active_voltage_vec
  let sD := nl_run_curr_arnoldi o p tC.1 tC.1.trial_currents tC.2 active_voltage_vec
  let newcurr := vadd sD.trial_currents (o.curr_nk_dx sD.trial_currents tC.2)
  let sE := { sD with trial_currents := newcurr }
  -- convergence checks of the pair [trial_currents, trial_plasma_psi]
  let tF := F_function_curr o p sE sE.trial_currents active_voltage_vec
  let tG := calculate_rel_tolerance_currents p tF.1 tF.2
  let c1 := anyGt tG.2 p.target_relative_tol_currents
  let tH := calculate_rel_tolerance_GS o tG.1 tG.1.trial_plasma_psi
  let cGS := decide (p.target_relative_tol_GS < tH.2)
  { tH.1 with res_curr := tF.2, rel_curr_res := tG.2, r_res_GS := tH.2,
              control := c1 || cGS, control_GS := cGS }

/-- The preparation performed by `nlstepper` before the loop when
`linear_only=False` (lines 1524-1547): linear guess, initial current residual
and its relative version, entry value of `control` (currents only), initial
GS relative residual, `control_GS = 0`. -/
def nl_entry (o : NLOracles) (p : NLParams) (active_voltage_vec : List ℚ)
    (s : NLState) : NLState :=
  let s1 := set_linear_solution o p s active_voltage_vec
  let t1 := F_function_curr o p s1 s1.trial_currents active_voltage_vec
  let t2 := calculate_rel_tolerance_currents p t1.1 t1.2
  let c1 := anyGt t2.2 p.target_relative_tol_currents
  let t3 := calculate_rel_tolerance_GS o t2.1 t2.1.trial_plasma_psi
  { t3.1 with res_curr := t1.2, rel_curr_res := t2.2, r_res_GS := t3.2,
              control := c1, control_GS := false }

/-- The `while control:` loop.  The source has no iteration cap; `fuel` is
the observation depth of this embedding: `none` means the loop is still
running after `fuel` cycles. -/
def nl_loop (o : NLOracles) (p : NLParams) (active_voltage_vec : List ℚ) :
    ℕ → NLState → Option NLState
  | 0, s => if s.control then none else some s
  | fuel + 1, s =>
    if s.control then nl_loop o p active_voltage_vec fuel (nl_cycle o p active_voltage_vec s)
    else some s

/-- Source: `nlstepper(..., linear_only=False)` with `profile_parameters=None` and
`plasma_resistivity=None` (under which `check_and_change_profiles` and
`check_and_change_plasma_resistivity` leave the state unchanged): entry
preparation, the `while control` loop, then `step_complete_assign`.
Returns `none` when the loop has not exited within `fuel` cycles. -/
def nlstepper_nonlinear (o : NLOracles) (p : NLParams)
    (active_voltage_vec : List ℚ) (fuel : ℕ) (s : NLState) : Option NLState :=
  (nl_loop o p active_voltage_vec fuel (nl_entry o p active_voltage_vec s)).map
    (fun sE => step_complete_assign o p sE false)

/-- Source: `nlstepper(..., linear_only=True)`: the linear solution is accepted and
committed immediately. -/
def nlstepper_linear_only (o : NLOracles) (p : NLParams)
    (active_voltage_vec : List ℚ) (s : NLState) : NLState :=
  step_complete_assign o p (set_linear_solution o p s active_voltage_vec) true

/-- The call `nlstepper(..., linear_only=False)` terminates: the `while
control:` loop exits after some finite number of cycles. -/
def nl_terminates (o : NLOracles) (p : NLParams) (active_voltage_vec : List ℚ)
    (s : NLState) : Prop :=
  ∃ fuel, (nl_loop o p active_voltage_vec fuel (nl_entry o p active_voltage_vec s)).isSome

/-! ## Concrete instances used by counterexamples and witnesses -/

/-- Stepper parameters at (essentially) the `nlstepper` defaults. -/
def nlp0 : NLParams :=
  { dt_step := 1
    plasma_norm_factor := 1
    target_relative_tol_currents := 1/200
    target_relative_tol_GS := 1/200
    working_relative_tol_GS := 1/1000
    blend_GS := 1/2
    curr_eps := 1/100000
    max_no_NK_psi := 5 }

/-- A concrete pre-step solver state (all vectors one-dimensional). -/
def nls0 : NLState :=
  { eq1_coil_currents := [0], eq1_plasma_psi := [0], eq1_current := 0
    profiles1_Ip := 0, profiles1_jtor := [0]
    currents_vec := [1], currents_vec_m1 := [1], time := 0, step_no := 0
    Iy := [0], Iy_m1 := [0], hatIy := [1]
    trial_currents := [0], trial_plasma_psi := [0], tokamak_psi := [0]
    eq2_coil_currents := [0], eq2_plasma_psi := [0], eq2_current := 0
    profiles2_Ip := 0, profiles2_jtor := [0]
    vessel_currents_vec := [0], broad_hatIy := [0], hatIy1_last := [0]
    curr_step := [0], d_plasma_psi_step := 0, rtol_NK := 1/10000000
    res_curr := [0], rel_curr_res := [0], r_res_GS := 0
    control := false, control_GS := false }

/-- Constant-valued sub-solver oracles under which the simplified circuit
solver keeps returning currents at distance 1 from the trial currents while
both NK updates return 0: the residual never decreases. -/
def oDiv : NLOracles :=
  { lin_stepper := fun _ _ => [1]
    vessel := fun _ => [5]
    greens := fun _ => [3]
    jtor := fun _ _ => [4]
    hat_from_jtor := fun _ => [1]
    Iy_from_jtor := fun _ => [1]
    normalize_sum := fun _ => [1]
    make_broad := fun _ _ => [1]
    simp_stepper := fun _ _ _ _ _ => [2]
    gs_psi := fun _ => [2]
    gs_jtor := fun _ => [4]
    gsres := fun _ _ => [1]
    psi_nk_probes := fun _ _ => []
    psi_nk_dx := fun _ _ => [0]
    curr_nk_probes := fun _ _ => []
    curr_nk_dx := fun _ _ => [0]
    }

/-- Same oracles except that the simplified circuit solver reproduces the
linear guess exactly, so the entry current residual is zero — while the
static-GS residual stays large. -/
def oConv : NLOracles :=
  { oDiv with simp_stepper := fun _ _ _ _ _ => [1] }

/-! # Theorems -/

/-! ## C2: implicit-Euler full stepper -/

/-- The executable `linalg_inv` coincides with Mathlib's matrix inverse (over the field ℚ,
`Ring.inverse` of the determinant is its inverse). -/
lemma linalg_inv_eq_inv {d : ℕ} (A : Matrix (Fin d) (Fin d) ℚ) :
    linalg_inv A = A⁻¹ := by
  rw [linalg_inv, Matrix.inv_def, Ring.inverse_eq_inv]

/-- C2 (amended): for invertible `M` and any `R`, `F`, and timesteps, the
solver built by `implicit_euler_solver.__init__` decomposes the full step into
`n = int(Dt/h_max + 0.999)` sub-steps (not `⌈Dt/h_max⌉`: see the
counterexample) of equal size `h = Dt/n`, caches
`inverse_operator = (1 + h·M⁻¹·R)⁻¹`, and `full_stepper` applies the sub-step
map `I ↦ (1 + h·M⁻¹·R)⁻¹ · (h·M⁻¹·F + I)` exactly `n` times; under the
stated invertibility hypotheses the cached operator and `Mmatrixm1` are true
inverses. -/
theorem implicit_euler_full_stepper_spec {d : ℕ}
    (M R : Matrix (Fin d) (Fin d) ℚ) (Dt hmax : ℚ) (It F : Fin d → ℚ)
    (hM : IsUnit M.det)
    (hOp : IsUnit ((1 : Matrix (Fin d) (Fin d) ℚ)
        + (Dt / ((n_steps_calc Dt hmax).toNat : ℚ)) • (M⁻¹ * R)).det) :
    (implicit_euler_mk M R Dt hmax).n_steps = (n_steps_calc Dt hmax).toNat ∧
    (implicit_euler_mk M R Dt hmax).internal_timestep
      = Dt / ((n_steps_calc Dt hmax).toNat : ℚ) ∧
    (implicit_euler_mk M R Dt hmax).inverse_operator
      = ((1 : Matrix (Fin d) (Fin d) ℚ)
          + (Dt / ((n_steps_calc Dt hmax).toNat : ℚ)) • (M⁻¹ * R))⁻¹ ∧
    ((1 : Matrix (Fin d) (Fin d) ℚ)
        + (Dt / ((n_steps_calc Dt hmax).toNat : ℚ)) • (M⁻¹ * R))⁻¹
      * ((1 : Matrix (Fin d) (Fin d) ℚ)
          + (Dt / ((n_steps_calc Dt hmax).toNat : ℚ)) • (M⁻¹ * R)) = 1 ∧
    M⁻¹ * M = 1 ∧
    full_stepper (implicit_euler_mk M R Dt hmax) It F
      = (fun I => ((1 : Matrix (Fin d) (Fin d) ℚ)
          + (Dt / ((n_steps_calc Dt hmax).toNat : ℚ)) • (M⁻¹ * R))⁻¹.mulVec
            ((Dt / ((n_steps_calc Dt hmax).toNat : ℚ)) • (M⁻¹.mulVec F) + I))
          ^[(n_steps_calc Dt hmax).toNat] It := by
  have hMm1 : (implicit_euler_mk M R Dt hmax).Mmatrixm1 = M⁻¹ := by
    show linalg_inv M = M⁻¹
    exact linalg_inv_eq_inv M
  have hit : (implicit_euler_mk M R Dt hmax).internal_timestep
      = Dt / ((n_steps_calc Dt hmax).toNat : ℚ) := rfl
  have hop : (implicit_euler_mk M R Dt hmax).inverse_operator
      = ((1 : Matrix (Fin d) (Fin d) ℚ)
          + (Dt / ((n_steps_calc Dt hmax).toNat : ℚ)) • (M⁻¹ * R))⁻¹ := by
    show linalg_inv ((1 : Matrix (Fin d) (Fin d) ℚ)
        + (Dt / ((n_steps_calc Dt hmax).toNat : ℚ)) • (linalg_inv M * R)) = _
    rw [linalg_inv_eq_inv M, linalg_inv_eq_inv]
  refine ⟨rfl, hit, hop, Matrix.nonsing_inv_mul _ hOp, Matrix.nonsing_inv_mul _ hM, ?_⟩
  show (fun I => internal_stepper (implicit_euler_mk M R Dt hmax) I
      ((implicit_euler_mk M R Dt hmax).Mmatrixm1.mulVec F))
      ^[(implicit_euler_mk M R Dt hmax).n_steps] It = _
  have hfun : (fun I => internal_stepper (implicit_euler_mk M R Dt hmax) I
      ((implicit_euler_mk M R Dt hmax).Mmatrixm1.mulVec F))
      = (fun I => ((1 : Matrix (Fin d) (Fin d) ℚ)
          + (Dt / ((n_steps_calc Dt hmax).toNat : ℚ)) • (M⁻¹ * R))⁻¹.mulVec
            ((Dt / ((n_steps_calc Dt hmax).toNat : ℚ)) • (M⁻¹.mulVec F) + I)) := by
    funext I
    rw [internal_stepper, hMm1, hop, hit]
  rw [hfun]
  rfl

/-- C2 counterexample: with `full_timestep/max_internal_timestep = 2.0005`
the code computes `n_steps = int(2.0005 + 0.999) = 2` sub-steps, whereas the
claimed `⌈Δt/h_max⌉` is `3`. -/
theorem implicit_euler_n_steps_not_ceil :
    (implicit_euler_set_timesteps
        (implicit_euler_mk (1 : Matrix (Fin 1) (Fin 1) ℚ) 1 1 1)
        (4001/2000) 1).n_steps = 2 ∧
    ⌈(4001/2000 : ℚ) / 1⌉ = 3 := by
  have h0 : (implicit_euler_set_timesteps
      (implicit_euler_mk (1 : Matrix (Fin 1) (Fin 1) ℚ) 1 1 1)
      (4001/2000) 1).n_steps = (n_steps_calc (4001/2000) 1).toNat := rfl
  have h1 : n_steps_calc (4001/2000) 1 = 2 := by
    rw [n_steps_calc, py_int, if_pos (by norm_num : (0:ℚ) ≤ 4001/2000/1 + 999/1000)]
    rw [Int.floor_eq_iff]
    constructor <;> norm_num
  constructor
  · rw [h0, h1]; rfl
  · rw [Int.ceil_eq_iff]
    norm_num

/-- Witness for C2: the hypotheses of `implicit_euler_full_stepper_spec` hold
at the concrete data `d = 1`, `M = R = 1`, `Δt = 1`, `h_max = 1/2`. -/
theorem implicit_euler_full_stepper_spec_witness :
    IsUnit (Matrix.det (1 : Matrix (Fin 1) (Fin 1) ℚ)) ∧
    IsUnit ((1 : Matrix (Fin 1) (Fin 1) ℚ)
        + ((1 : ℚ) / ((n_steps_calc 1 (1/2)).toNat : ℚ))
          • ((1 : Matrix (Fin 1) (Fin 1) ℚ)⁻¹ * 1)).det ∧
    full_stepper (implicit_euler_mk (1 : Matrix (Fin 1) (Fin 1) ℚ) 1 1 (1/2))
        (fun _ => 3) (fun _ => 5)
      = (fun I => ((1 : Matrix (Fin 1) (Fin 1) ℚ)
          + ((1 : ℚ) / ((n_steps_calc 1 (1/2)).toNat : ℚ))
            • ((1 : Matrix (Fin 1) (Fin 1) ℚ)⁻¹ * 1))⁻¹.mulVec
            (((1 : ℚ) / ((n_steps_calc 1 (1/2)).toNat : ℚ))
              • ((1 : Matrix (Fin 1) (Fin 1) ℚ)⁻¹.mulVec fun _ => 5) + I))
          ^[(n_steps_calc 1 (1/2)).toNat] (fun _ => 3) := by
  have h1 : IsUnit (Matrix.det (1 : Matrix (Fin 1) (Fin 1) ℚ)) := by
    simp
  have hn : n_steps_calc 1 (1/2) = 2 := by
    rw [n_steps_calc, py_int, if_pos (by norm_num : (0:ℚ) ≤ 1/(1/2) + 999/1000)]
    rw [Int.floor_eq_iff]
    constructor <;> norm_num
  have h2 : IsUnit ((1 : Matrix (Fin 1) (Fin 1) ℚ)
      + ((1 : ℚ) / ((n_steps_calc 1 (1/2)).toNat : ℚ))
        • ((1 : Matrix (Fin 1) (Fin 1) ℚ)⁻¹ * 1)).det := by
    rw [inv_one, Matrix.mul_one, hn]
    rw [Matrix.det_fin_one]
    simp [Matrix.add_apply, Matrix.smul_apply, Matrix.one_apply_eq, isUnit_iff_ne_zero]
    norm_num
  exact ⟨h1, h2,
    (implicit_euler_full_stepper_spec 1 1 1 (1/2) (fun _ => 3) (fun _ => 5) h1 h2).2.2.2.2.2⟩

/-! ## C4: plasma current committed by `NewtonKrylov.solve` -/

/-- Invariant of the `solve` loop: the recorded `profiles.jtor` always equals
the profile evaluation at the current trial flux. -/
lemma NK_solve_loop_jtor (Jt lins : List ℚ → List ℚ) (tokamak_psi : List ℚ)
    (dpsiO : NKSolveState → List ℚ) (rtol : ℚ) :
    ∀ (fuel : ℕ) (s : NKSolveState), s.jtor = Jt (vadd tokamak_psi s.psi) →
      (NK_solve_loop Jt lins tokamak_psi dpsiO rtol fuel s).jtor
        = Jt (vadd tokamak_psi (NK_solve_loop Jt lins tokamak_psi dpsiO rtol fuel s).psi) := by
  intro fuel
  induction fuel with
  | zero => intro s hs; exact hs
  | succ n ih =>
    intro s hs
    rw [NK_solve_loop]
    by_cases hc : rtol < rel_change_calc s.psi s.res0
    · rw [if_pos hc]
      exact ih _ rfl
    · rw [if_neg hc]
      exact hs

/-- C4: on every termination path of `NewtonKrylov.solve` (converged or
`max_iter` exhausted), the committed plasma current equals
`np.sum(profiles.jtor) * dRdZ` with `profiles.jtor` the final profile
evaluation, i.e. the one at the returned plasma flux. -/
theorem NK_solve_current_is_jtor_integral
    (Jt lins : List ℚ → List ℚ) (dpsiO : NKSolveState → List ℚ)
    (tokamak_psi : List ℚ) (rtol : ℚ) (max_iter : ℕ) (dRdZ : ℚ)
    (eq : GSEquilibrium) :
    (NK_solve Jt lins dpsiO tokamak_psi rtol max_iter dRdZ eq).1.eq_current
      = lsum (NK_solve Jt lins dpsiO tokamak_psi rtol max_iter dRdZ eq).2 * dRdZ ∧
    (NK_solve Jt lins dpsiO tokamak_psi rtol max_iter dRdZ eq).2
      = Jt (vadd tokamak_psi
          (NK_solve Jt lins dpsiO tokamak_psi rtol max_iter dRdZ eq).1.plasma_psi) := by
  refine ⟨rfl, ?_⟩
  exact NK_solve_loop_jtor Jt lins tokamak_psi dpsiO rtol max_iter _ rfl

/-! ## C9: mutual-inductance symmetry -/

/-- C9: for any machine description (coil filaments with signed polarities)
and any symmetric Green's kernel, the mutual-inductance matrix assembled by
`MASTU_coils.py` — pairwise Green's-function sums over filament pairs scaled
by the polarities and by `2π` — is exactly symmetric; exact equality implies
the spec tolerance `‖M − Mᵀ‖∞ ≤ 10⁻¹⁰·‖M‖∞`.  Symmetry of the kernel is the
defining property of the external `freegs.gradshafranov.Greens` (the mutual
flux between two coaxial circular filaments). -/
theorem coil_self_ind_symm (G : ℚ × ℚ → ℚ × ℚ → ℝ) (coils : List CoilSpec)
    (hG : ∀ u v, G u v = G v u) (i j : ℕ) :
    coil_self_ind (2 * Real.pi) G coils i j = coil_self_ind (2 * Real.pi) G coils j i := by
  simp only [coil_self_ind]
  congr 1
  rw [Finset.sum_comm]
  refine Finset.sum_congr rfl fun a _ => Finset.sum_congr rfl fun b _ => ?_
  rw [hG]
  congr 1
  ring

/-- Witness for C9 at a concrete symmetric kernel and a two-coil machine. -/
theorem coil_self_ind_symm_witness :
    (∀ u v : ℚ × ℚ, ((u.1 * v.1 + u.2 * v.2 : ℚ) : ℝ) = ((v.1 * u.1 + v.2 * u.2 : ℚ) : ℝ)) ∧
    coil_self_ind (2 * Real.pi) (fun u v => ((u.1 * v.1 + u.2 * v.2 : ℚ) : ℝ))
        [⟨[(1, 2)], [1]⟩, ⟨[(3, 4), (5, 6)], [1, -1]⟩] 0 1
      = coil_self_ind (2 * Real.pi) (fun u v => ((u.1 * v.1 + u.2 * v.2 : ℚ) : ℝ))
        [⟨[(1, 2)], [1]⟩, ⟨[(3, 4), (5, 6)], [1, -1]⟩] 1 0 := by
  have hG : ∀ u v : ℚ × ℚ,
      ((u.1 * v.1 + u.2 * v.2 : ℚ) : ℝ) = ((v.1 * u.1 + v.2 * u.2 : ℚ) : ℝ) :=
    fun u v => congrArg (fun q : ℚ => (q : ℝ)) (by ring)
  exact ⟨hG,
    coil_self_ind_symm (fun u v => ((u.1 * v.1 + u.2 * v.2 : ℚ) : ℝ))
      [⟨[(1, 2)], [1]⟩, ⟨[(3, 4), (5, 6)], [1, -1]⟩] hG 0 1⟩

/-! ## C10: mode-removal selection mask -/

/-- A sum of squares is nonnegative. -/
lemma sumSq_nonneg (c : List ℚ) : 0 ≤ sumSq c := by
  rw [sumSq]
  apply List.sum_nonneg
  intro x hx
  obtain ⟨y, -, rfl⟩ := List.mem_map.mp hx
  exact mul_self_nonneg y

/-- The boolean `norm_gt c t` decides exactly `np.linalg.norm(c) > t`, the comparison on
line 290 of `nonlinear_solve.py`. -/
lemma norm_gt_iff (c : List ℚ) (t : ℚ) :
    norm_gt c t = true ↔ (t : ℝ) < Real.sqrt ((sumSq c : ℚ) : ℝ) := by
  rw [norm_gt]
  split_ifs with h
  · simp only [true_iff]
    calc (t : ℝ) < 0 := by exact_mod_cast h
      _ ≤ Real.sqrt ((sumSq c : ℚ) : ℝ) := Real.sqrt_nonneg _
  · rw [decide_eq_true_eq]
    rw [Real.lt_sqrt (by exact_mod_cast not_lt.mp h), pow_two]
    norm_cast

/-- C10 (amended): the selection mask keeps all `n_active_coils` active-coil
entries and the final total-plasma-current entry unconditionally; a passive
vessel normal-mode entry is kept exactly when its Jacobian column norm
strictly exceeds `min_dIy_dI` — equivalently, it is dropped iff
`‖dIy/dI_mode‖ ≤ min_dIy_dI` (the source drops at equality too; see the
counterexample). -/
theorem selected_modes_mask_spec (cols : List (List ℚ)) (n_active : ℕ) (t : ℚ)
    (hlen : n_active + 1 ≤ cols.length) :
    (selected_modes_mask cols n_active t).length = cols.length ∧
    (∀ i, i < n_active → (selected_modes_mask cols n_active t).getD i false = true) ∧
    (selected_modes_mask cols n_active t).getD (cols.length - 1) false = true ∧
    (∀ i, n_active ≤ i → i + 1 < cols.length →
      (selected_modes_mask cols n_active t).getD i false = norm_gt (cols.getD i []) t) := by
  have hmask : (cols.map (fun c => norm_gt c t)).length = cols.length :=
    List.length_map _ _
  have hlen1 : (selected_modes_mask cols n_active t).length = cols.length := by
    simp only [selected_modes_mask, List.length_append, List.length_replicate,
      List.length_dropLast, List.length_drop, List.length_map, List.length_singleton]
    omega
  have hXlen : (List.replicate n_active true
      ++ ((cols.map (fun c => norm_gt c t)).drop n_active).dropLast).length
      = cols.length - 1 := by
    simp only [List.length_append, List.length_replicate, List.length_dropLast,
      List.length_drop, List.length_map]
    omega
  refine ⟨hlen1, ?_, ?_, ?_⟩
  · intro i hi
    rw [selected_modes_mask, List.getD_eq_getElem?_getD, List.getElem?_append]
    rw [if_pos (by rw [hXlen]; omega), List.getElem?_append]
    rw [if_pos (by simpa using hi), List.getElem?_replicate, if_pos hi]
    rfl
  · rw [selected_modes_mask, List.getD_eq_getElem?_getD, List.getElem?_append]
    rw [if_neg (by rw [hXlen]; omega), hXlen]
    have hidx : cols.length - 1 - (cols.length - 1) = 0 := by omega
    rw [hidx]
    rfl
  · intro i hi1 hi2
    rw [selected_modes_mask, List.getD_eq_getElem?_getD, List.getElem?_append]
    rw [if_pos (by rw [hXlen]; omega), List.getElem?_append]
    rw [if_neg (by simp only [List.length_replicate]; omega)]
    rw [List.dropLast_eq_take, List.getElem?_take]
    rw [if_pos (by simp only [List.length_replicate, List.length_drop,
      List.length_map]; omega)]
    rw [List.getElem?_drop, List.getElem?_map]
    have hi3 : n_active + (i - (List.replicate n_active true).length) = i := by
      simp only [List.length_replicate]; omega
    rw [hi3]
    have hi4 : i < cols.length := by omega
    rw [List.getElem?_eq_getElem hi4]
    rw [List.getD_eq_getElem?_getD, List.getElem?_eq_getElem hi4]
    rfl

/-- C10 counterexample: with `min_dIy_dI = 5` and the passive column `[3, 4]`
(Euclidean norm exactly 5, since `sumSq = 5·5`), the mask drops the passive
entry even though its norm is not below the threshold — refuting "only
passive entries whose norm is below `min_dIy_dI` are dropped". -/
theorem selected_modes_mask_drops_at_threshold :
    selected_modes_mask [[6], [3, 4], [7]] 1 5 = [true, false, true] ∧
    sumSq [(3 : ℚ), 4] = 5 * 5 ∧ ¬ ((5 : ℚ) < 0) := by
  refine ⟨?_, by norm_num [sumSq], by norm_num⟩
  norm_num [selected_modes_mask, norm_gt, sumSq]

/-- Witness for C10 at the concrete Jacobian `[[6], [3, 4], [7]]`,
`n_active_coils = 1`, `min_dIy_dI = 5`. -/
theorem selected_modes_mask_spec_witness :
    1 + 1 ≤ ([[6], [3, 4], [7]] : List (List ℚ)).length ∧
    ((selected_modes_mask [[6], [3, 4], [7]] 1 5).length
        = ([[6], [3, 4], [7]] : List (List ℚ)).length ∧
      (∀ i, i < 1 → (selected_modes_mask [[6], [3, 4], [7]] 1 5).getD i false = true) ∧
      (selected_modes_mask [[6], [3, 4], [7]] 1 5).getD
          (([[6], [3, 4], [7]] : List (List ℚ)).length - 1) false = true ∧
      (∀ i, 1 ≤ i → i + 1 < ([[6], [3, 4], [7]] : List (List ℚ)).length →
        (selected_modes_mask [[6], [3, 4], [7]] 1 5).getD i false
          = norm_gt (([[6], [3, 4], [7]] : List (List ℚ)).getD i []) 5)) :=
  ⟨by norm_num, selected_modes_mask_spec [[6], [3, 4], [7]] 1 5 (by norm_num)⟩

/-! ## C5: snapshot loading and validation -/

/-- C5: snapshot initialisation.  (i) Entries with name prefix `passive` are
invisible to the validation; (ii) when the ordered active-coil name lists
agree, no warning is given, every tokamak entry is mapped by overwriting
active currents from the file (passive ones are untouched), and the plasma
flux is interpolated exactly when the shapes differ and then doubled;
(iii) when the active name lists disagree, a warning is given and tokamak
currents and plasma flux both fall back to their previous values. -/
theorem initialize_from_equilibrium_spec
    (interp : List (List ℚ) → List (List ℚ))
    (tokamak : List (CoilName × ℚ)) (cur_psi : List (List ℚ)) (snap : EqSnapshot) :
    (∀ n c, n.take 7 = passiveWord →
      activeNames ((snap.coil_currents ++ [(n, c)]).map Prod.fst)
        = activeNames (snap.coil_currents.map Prod.fst)) ∧
    (activeNames (snap.coil_currents.map Prod.fst)
        = activeNames (tokamak.map Prod.fst) →
      (initialize_from_equilibrium interp tokamak cur_psi snap).2.2 = false ∧
      (initialize_from_equilibrium interp tokamak cur_psi snap).1
        = tokamak.map (fun nc =>
            if nc.1.take 7 ≠ passiveWord
            then (nc.1, (snap.coil_currents.lookup nc.1).getD nc.2) else nc) ∧
      (initialize_from_equilibrium interp tokamak cur_psi snap).2.1
        = (if gridShape snap.plasma_psi ≠ gridShape cur_psi
           then interp snap.plasma_psi else snap.plasma_psi).map
            (fun row => row.map (fun x => 2 * x))) ∧
    (activeNames (snap.coil_currents.map Prod.fst)
        ≠ activeNames (tokamak.map Prod.fst) →
      initialize_from_equilibrium interp tokamak cur_psi snap
        = (tokamak, cur_psi, true)) := by
  refine ⟨?_, ?_, ?_⟩
  · intro n c hn
    rw [activeNames, activeNames, List.map_append, List.filter_append]
    simp [hn]
  · intro heq
    rw [initialize_from_equilibrium]
    simp only [heq, if_pos rfl, initialize_plasma_psi]
    exact ⟨rfl, rfl, rfl⟩
  · intro hne
    rw [initialize_from_equilibrium]
    simp only [if_neg hne]

/-- Witness for C5: a matching snapshot (one active coil `Sol`, one passive
entry on each side, shapes (1,1) vs (2,1) forcing interpolation). -/
theorem initialize_from_equilibrium_spec_witness :
    (activeNames ((([(['S','o','l'], (7:ℚ)),
          (['p','a','s','s','i','v','e','9'], 9)]) : List (CoilName × ℚ)).map Prod.fst)
      = activeNames ((([(['S','o','l'], (3:ℚ)),
          (['p','a','s','s','i','v','e','1'], 4)]) : List (CoilName × ℚ)).map Prod.fst)) ∧
    ((initialize_from_equilibrium (fun _ => [[5], [6]])
        [(['S','o','l'], 3), (['p','a','s','s','i','v','e','1'], 4)] [[0], [0]]
        ⟨[(['S','o','l'], 7), (['p','a','s','s','i','v','e','9'], 9)], [[1]]⟩).2.2 = false ∧
      (initialize_from_equilibrium (fun _ => [[5], [6]])
        [(['S','o','l'], 3), (['p','a','s','s','i','v','e','1'], 4)] [[0], [0]]
        ⟨[(['S','o','l'], 7), (['p','a','s','s','i','v','e','9'], 9)], [[1]]⟩).1
        = ([(['S','o','l'], 3), (['p','a','s','s','i','v','e','1'], 4)] :
            List (CoilName × ℚ)).map (fun nc =>
            if nc.1.take 7 ≠ passiveWord
            then (nc.1, (([(['S','o','l'], (7:ℚ)),
                (['p','a','s','s','i','v','e','9'], 9)] :
                  List (CoilName × ℚ)).lookup nc.1).getD nc.2) else nc) ∧
      (initialize_from_equilibrium (fun _ => [[5], [6]])
        [(['S','o','l'], 3), (['p','a','s','s','i','v','e','1'], 4)] [[0], [0]]
        ⟨[(['S','o','l'], 7), (['p','a','s','s','i','v','e','9'], 9)], [[1]]⟩).2.1
        = (if gridShape [[1]] ≠ gridShape [[0], [0]]
           then (fun _ => [[5], [6]] : List (List ℚ) → List (List ℚ)) [[1]]
           else [[1]]).map (fun row => row.map (fun x => 2 * x))) :=
  ⟨by decide,
   (initialize_from_equilibrium_spec (fun _ => [[5], [6]])
      [(['S','o','l'], 3), (['p','a','s','s','i','v','e','1'], 4)] [[0], [0]]
      ⟨[(['S','o','l'], 7), (['p','a','s','s','i','v','e','9'], 9)], [[1]]⟩).2.1
     (by decide)⟩

/-! ## C6: automatic timestep from the dominant instability -/

/-- C6: for `automatic_timestep=(a, b)` with `a ≥ 0`, when the linearised
system has at least one unstable mode (`growth_rates = g0 :: gr`, `g0 > 0`,
spec-modelled from `linear_solve`), the reported timescale `τ = 1/g0` is
finite and positive and the solver resets `dt_step = a·|τ|` and
`max_internal_timestep = dt_step/b`; with `(a,b) = (0.1, 10)` this is
`dt_step = 0.1·τ` and `max_internal_timestep = dt_step/10`. -/
theorem automatic_timestep_reset_spec (s : NLTimestepState) (g0 : ℚ)
    (gr : List ℚ) (a b : ℚ) (hg : 0 < g0) (ha : 0 ≤ a) :
    0 < 1 / g0 ∧
    (automatic_timestep_reset s (g0 :: gr) a b).dt_step = a * |1 / g0| ∧
    (automatic_timestep_reset s (g0 :: gr) a b).max_internal_timestep
      = (automatic_timestep_reset s (g0 :: gr) a b).dt_step / b := by
  have hne : (g0 :: gr) ≠ ([] : List ℚ) := by simp
  have hdt : (automatic_timestep_reset s (g0 :: gr) a b).dt_step
      = |1 / g0 * a| := by
    unfold automatic_timestep_reset
    rw [if_pos hne]
    rfl
  have hmx : (automatic_timestep_reset s (g0 :: gr) a b).max_internal_timestep
      = |1 / g0 * a| / b := by
    unfold automatic_timestep_reset
    rw [if_pos hne]
    rfl
  refine ⟨by positivity, ?_, ?_⟩
  · rw [hdt, abs_mul, abs_of_nonneg ha, mul_comm]
  · rw [hmx, hdt]

/-- Witness for C6 at `growth_rates = [2]`, `automatic_timestep = (0.1, 10)`. -/
theorem automatic_timestep_reset_spec_witness :
    (0 : ℚ) < 2 ∧ (0 : ℚ) ≤ 1/10 ∧
    (0 < 1 / (2:ℚ) ∧
     (automatic_timestep_reset ⟨0,0,0,0,0,0,0,0⟩ [2] (1/10) 10).dt_step
       = (1/10) * |1 / (2:ℚ)| ∧
     (automatic_timestep_reset ⟨0,0,0,0,0,0,0,0⟩ [2] (1/10) 10).max_internal_timestep
       = (automatic_timestep_reset ⟨0,0,0,0,0,0,0,0⟩ [2] (1/10) 10).dt_step / 10) :=
  ⟨by norm_num, by norm_num,
   automatic_timestep_reset_spec ⟨0,0,0,0,0,0,0,0⟩ 2 [] (1/10) 10
     (by norm_num) (by norm_num)⟩

/-! ## C7: `adjust_psi_plasma` raises on its third stage -/

/-- The cap `n_down_max = np.floor(n_up + np.log(1.5) - np.log(1.1))` equals
`n_up` exactly, since `0 < log 1.5 - log 1.1 < 1`; this justifies the
executable `n_down_max` of the embedding. -/
lemma log_ratio_floor (n_up : ℕ) :
    ⌊(n_up : ℝ) + Real.log 1.5 - Real.log 1.1⌋ = (n_down_max n_up : ℤ) := by
  have h1 : Real.log 1.5 - Real.log 1.1 = Real.log (1.5 / 1.1) :=
    (Real.log_div (by norm_num) (by norm_num)).symm
  have h2 : (0 : ℝ) < Real.log (1.5 / 1.1) :=
    Real.log_pos (by norm_num)
  have h3 : Real.log (1.5 / 1.1) < 1 :=
    (Real.log_lt_sub_one_of_pos (by norm_num) (by norm_num)).trans_le (by norm_num)
  have h4 : (n_up : ℝ) + Real.log 1.5 - Real.log 1.1
      = (n_up : ℝ) + Real.log (1.5 / 1.1) := by
    rw [add_sub_assoc, h1]
  rw [h4, n_down_max, Int.floor_eq_iff]
  constructor
  · push_cast
    linarith
  · push_cast
    linarith

/-- C7: the code, not the claim, is at fault.  With a critical-point search
that immediately finds an O-point but never an X-point (`find_critical`
returns an empty X-point list; `n_up = 0`, so the scale-down cap is 0),
`adjust_psi_plasma` reaches line 96 with `xpoint_flag == False` and evaluates
the unassigned local `n_exp`, raising `UnboundLocalError` instead of
proceeding to the exponentiation stage as the claim (and the spec's stated
intent) describes. -/
theorem adjust_psi_plasma_raises :
    adjust_psi_plasma (fun _ => CritResult.ok 0) [[0]] [[1]]
      = AdjustOutcome.unboundLocalError := rfl

/-! ## C1/C3/C8: the outer fixed-point loop of `nlstepper` -/

/-- The method `F_function_curr` touches only scratch state. -/
lemma durable_F_function_curr (o : NLOracles) (p : NLParams) (s : NLState)
    (tc v : List ℚ) : durable (F_function_curr o p s tc v).1 = durable s := rfl

/-- The method `F_function_psi` touches only scratch state. -/
lemma durable_F_function_psi (o : NLOracles) (p : NLParams) (s : NLState)
    (x v : List ℚ) : durable (F_function_psi o p s x v).1 = durable s := rfl

/-- Folding state through probe evaluations preserves the durable state. -/
lemma durable_foldl (f : NLState → List ℚ → NLState)
    (hf : ∀ st pr, durable (f st pr) = durable st) :
    ∀ (l : List (List ℚ)) (s : NLState), durable (l.foldl f s) = durable s := by
  intro l
  induction l with
  | nil => intro s; rfl
  | cons h t ih =>
    intro s
    rw [List.foldl_cons]
    exact (ih _).trans (hf s h)

/-- The Arnoldi probe evaluations on psi preserve the durable state. -/
lemma durable_run_psi (o : NLOracles) (p : NLParams) (s : NLState)
    (x r v : List ℚ) : durable (nl_run_psi_arnoldi o p s x r v) = durable s := by
  unfold nl_run_psi_arnoldi
  exact durable_foldl _ (fun st pr => durable_F_function_psi o p st pr v) _ s

/-- The Arnoldi probe evaluations on the currents preserve the durable state. -/
lemma durable_run_curr (o : NLOracles) (p : NLParams) (s : NLState)
    (x r v : List ℚ) : durable (nl_run_curr_arnoldi o p s x r v) = durable s := by
  unfold nl_run_curr_arnoldi
  exact durable_foldl _ (fun st pr => durable_F_function_curr o p st pr v) _ s

lemma run_psi_c1 (o : NLOracles) (p : NLParams) (s : NLState) (x r v : List ℚ) :
    (nl_run_psi_arnoldi o p s x r v).eq1_coil_currents = s.eq1_coil_currents :=
  congrArg (fun t => t.1) (durable_run_psi o p s x r v)

lemma run_psi_c2 (o : NLOracles) (p : NLParams) (s : NLState) (x r v : List ℚ) :
    (nl_run_psi_arnoldi o p s x r v).eq1_plasma_psi = s.eq1_plasma_psi :=
  congrArg (fun t => t.2.1) (durable_run_psi o p s x r v)

lemma run_psi_c3 (o : NLOracles) (p : NLParams) (s : NLState) (x r v : List ℚ) :
    (nl_run_psi_arnoldi o p s x r v).currents_vec = s.currents_vec :=
  congrArg (fun t => t.2.2.1) (durable_run_psi o p s x r v)

lemma run_psi_c4 (o : NLOracles) (p : NLParams) (s : NLState) (x r v : List ℚ) :
    (nl_run_psi_arnoldi o p s x r v).time = s.time :=
  congrArg (fun t => t.2.2.2.1) (durable_run_psi o p s x r v)

lemma run_psi_c5 (o : NLOracles) (p : NLParams) (s : NLState) (x r v : List ℚ) :
    (nl_run_psi_arnoldi o p s x r v).step_no = s.step_no :=
  congrArg (fun t => t.2.2.2.2) (durable_run_psi o p s x r v)

lemma run_curr_c1 (o : NLOracles) (p : NLParams) (s : NLState) (x r v : List ℚ) :
    (nl_run_curr_arnoldi o p s x r v).eq1_coil_currents = s.eq1_coil_currents :=
  congrArg (fun t => t.1) (durable_run_curr o p s x r v)

lemma run_curr_c2 (o : NLOracles) (p : NLParams) (s : NLState) (x r v : List ℚ) :
    (nl_run_curr_arnoldi o p s x r v).eq1_plasma_psi = s.eq1_plasma_psi :=
  congrArg (fun t => t.2.1) (durable_run_curr o p s x r v)

lemma run_curr_c3 (o : NLOracles) (p : NLParams) (s : NLState) (x r v : List ℚ) :
    (nl_run_curr_arnoldi o p s x r v).currents_vec = s.currents_vec :=
  congrArg (fun t => t.2.2.1) (durable_run_curr o p s x r v)

lemma run_curr_c4 (o : NLOracles) (p : NLParams) (s : NLState) (x r v : List ℚ) :
    (nl_run_curr_arnoldi o p s x r v).time = s.time :=
  congrArg (fun t => t.2.2.2.1) (durable_run_curr o p s x r v)

lemma run_curr_c5 (o : NLOracles) (p : NLParams) (s : NLState) (x r v : List ℚ) :
    (nl_run_curr_arnoldi o p s x r v).step_no = s.step_no :=
  congrArg (fun t => t.2.2.2.2) (durable_run_curr o p s x r v)

/-- The loop entry preparation (`set_linear_solution` and the initial
residual computations) touches only scratch state. -/
lemma durable_nl_entry (o : NLOracles) (p : NLParams) (v : List ℚ) (s : NLState) :
    durable (nl_entry o p v s) = durable s := by
  simp only [durable, nl_entry, set_linear_solution, F_function_curr, calculate_hatIy,
    currents_from_hatIy, assign_currents_solve_GS, assign_currents_eq2,
    calculate_rel_tolerance_currents, calculate_rel_tolerance_GS]

/-- One full cycle of the `while control` loop touches only scratch state. -/
lemma durable_nl_cycle (o : NLOracles) (p : NLParams) (v : List ℚ) (s : NLState) :
    durable (nl_cycle o p v s) = durable s := by
  simp only [durable, nl_cycle, F_function_psi, F_function_curr, calculate_hatIy,
    currents_from_hatIy, hatIy1_iterative_cycle, assign_currents_solve_GS,
    assign_currents_eq2, calculate_rel_tolerance_currents, calculate_rel_tolerance_GS,
    run_psi_c1, run_psi_c2, run_psi_c3, run_psi_c4, run_psi_c5,
    run_curr_c1, run_curr_c2, run_curr_c3, run_curr_c4, run_curr_c5]
  split_ifs <;> simp only [run_psi_c1, run_psi_c2, run_psi_c3, run_psi_c4, run_psi_c5,
    run_curr_c1, run_curr_c2, run_curr_c3, run_curr_c4, run_curr_c5]

/-- When the `while control` loop exits within the observed fuel, the exit
state has `control = false` and its durable state equals that of the loop
entry state. -/
lemma nl_loop_some (o : NLOracles) (p : NLParams) (v : List ℚ) :
    ∀ (fuel : ℕ) (s sE : NLState), nl_loop o p v fuel s = some sE →
      durable sE = durable s ∧ sE.control = false := by
  intro fuel
  induction fuel with
  | zero =>
    intro s sE h
    rw [nl_loop] at h
    by_cases hc : s.control = true
    · rw [if_pos hc] at h
      cases h
    · rw [if_neg hc] at h
      obtain rfl : s = sE := by injection h
      exact ⟨rfl, Bool.not_eq_true _ ▸ (Bool.eq_false_iff.mpr (fun hh => hc hh))⟩
  | succ n ih =>
    intro s sE h
    rw [nl_loop] at h
    by_cases hc : s.control = true
    · rw [if_pos hc] at h
      obtain ⟨hd, hctl⟩ := ih _ _ h
      exact ⟨hd.trans (durable_nl_cycle o p v s), hctl⟩
    · rw [if_neg hc] at h
      obtain rfl : s = sE := by injection h
      exact ⟨rfl, Bool.eq_false_iff.mpr (fun hh => hc hh)⟩

/-- C1 (amended): the `while control:` loop of `nlstepper` has no iteration
cap: the only way the stepper returns is that the loop exits with
`control = false`, i.e. with both relative-tolerance checks satisfied, and
the committed result is `step_complete_assign` of that converged state.  If
the tolerances are never met, `nlstepper` never returns (see the
counterexample `nlstepper_not_terminating`): it does not return a
non-converged status.  The caps `max_n_directions` and the static-GS
`max_iter` bound only the inner solvers. -/
theorem nlstepper_returns_only_converged (o : NLOracles) (p : NLParams)
    (v : List ℚ) (fuel : ℕ) (s0 out : NLState)
    (h : nlstepper_nonlinear o p v fuel s0 = some out) :
    ∃ sE, nl_loop o p v fuel (nl_entry o p v s0) = some sE ∧
      sE.control = false ∧ out = step_complete_assign o p sE false := by
  rw [nlstepper_nonlinear] at h
  obtain ⟨sE, hE, hmap⟩ := Option.map_eq_some'.mp h
  exact ⟨sE, hE, (nl_loop_some o p v fuel _ sE hE).2, hmap.symm⟩

/-- The entry `control` is computed from the entry relative current residual
alone (`nonlinear_solve.py`, line 1543). -/
lemma nl_entry_control_eq (o : NLOracles) (p : NLParams) (v : List ℚ)
    (s : NLState) :
    (nl_entry o p v s).control
      = anyGt (nl_entry o p v s).rel_curr_res p.target_relative_tol_currents := rfl

/-- The in-loop `control` combines the current check with the GS check
(`nonlinear_solve.py`, lines 1646-1650). -/
lemma nl_cycle_control_eq (o : NLOracles) (p : NLParams) (v : List ℚ)
    (s : NLState) :
    (nl_cycle o p v s).control
      = (anyGt (nl_cycle o p v s).rel_curr_res p.target_relative_tol_currents
         || decide (p.target_relative_tol_GS < (nl_cycle o p v s).r_res_GS)) := rfl

/-- The check `np.any(a > t)` is false exactly when every entry is `≤ t`. -/
lemma anyGt_eq_false (a : List ℚ) (t : ℚ) :
    anyGt a t = false ↔ ∀ x ∈ a, x ≤ t := by
  rw [anyGt, List.any_eq_false]
  simp [not_lt]

/-- C3 (amended): on entry (before any cycle) the loop is skipped — i.e.
convergence is declared — iff every component of the relative current
residual (|residual| over the `curr_eps`-floored |I(t+dt) − I(t−dt)|) is at
most `target_relative_tol_currents`; the GS flux residual is computed but not
consulted there.  After each cycle, convergence is declared iff additionally
the relative GS residual is at most `target_relative_tol_GS`.  Both
thresholds are inclusive (`np.any(res > tol)`). -/
theorem nlstepper_convergence_iff (o : NLOracles) (p : NLParams) (v : List ℚ)
    (s0 s : NLState) :
    ((nl_entry o p v s0).control = false ↔
      ∀ r ∈ (nl_entry o p v s0).rel_curr_res, r ≤ p.target_relative_tol_currents) ∧
    ((nl_cycle o p v s).control = false ↔
      ((∀ r ∈ (nl_cycle o p v s).rel_curr_res, r ≤ p.target_relative_tol_currents) ∧
        (nl_cycle o p v s).r_res_GS ≤ p.target_relative_tol_GS)) := by
  constructor
  · rw [nl_entry_control_eq]
    exact anyGt_eq_false _ _
  · rw [nl_cycle_control_eq, Bool.or_eq_false_iff]
    apply and_congr
    · exact anyGt_eq_false _ _
    · simp [not_lt]

/-- C8: frame of the durable equilibrium.  During `nlstepper` the durable
state (`eq1`'s coil currents and plasma flux, `currents_vec`, `time`,
`step_no`) is unchanged by the entry preparation and by every cycle of the
fixed-point loop — including all trial evaluations, which mutate only the
private copies (`eq2`, `profiles2`) and other scratch fields; if the stepper
returns, the durable state was mutated only by the final
`step_complete_assign`, invoked on a state that passed the convergence
checks; in linear-only mode `step_complete_assign` is invoked immediately on
the linear solution. -/
theorem nlstepper_durable_frame (o : NLOracles) (p : NLParams) (v : List ℚ)
    (fuel : ℕ) (s0 out : NLState) :
    durable (nl_entry o p v s0) = durable s0 ∧
    (∀ s, durable (nl_cycle o p v s) = durable s) ∧
    (∀ n sE, nl_loop o p v n (nl_entry o p v s0) = some sE →
      durable sE = durable s0 ∧ sE.control = false) ∧
    (nlstepper_nonlinear o p v fuel s0 = some out →
      ∃ sE, nl_loop o p v fuel (nl_entry o p v s0) = some sE ∧ sE.control = false ∧
        durable sE = durable s0 ∧ out = step_complete_assign o p sE false) ∧
    nlstepper_linear_only o p v s0
      = step_complete_assign o p (set_linear_solution o p s0 v) true := by
  refine ⟨durable_nl_entry o p v s0, fun s => durable_nl_cycle o p v s, ?_, ?_, rfl⟩
  · intro n sE h
    obtain ⟨hd, hctl⟩ := nl_loop_some o p v n _ sE h
    exact ⟨hd.trans (durable_nl_entry o p v s0), hctl⟩
  · intro h
    rw [nlstepper_nonlinear] at h
    obtain ⟨sE, hE, hmap⟩ := Option.map_eq_some'.mp h
    obtain ⟨hd, hctl⟩ := nl_loop_some o p v fuel _ sE hE
    exact ⟨sE, hE, hctl, hd.trans (durable_nl_entry o p v s0), hmap.symm⟩

/-- A state that is a fixed point of the loop body and still fails the
convergence check keeps the loop running forever. -/
lemma nl_loop_none_of_fixpoint (o : NLOracles) (p : NLParams) (v : List ℚ)
    (s : NLState) (hfix : nl_cycle o p v s = s) (hc : s.control = true) :
    ∀ n, nl_loop o p v n s = none := by
  intro n
  induction n with
  | zero => rw [nl_loop, if_pos hc]
  | succ m ih => rw [nl_loop, if_pos hc, hfix]; exact ih

/-- With the `oDiv` sub-solver behaviour the loop entry state fails the
currents tolerance. -/
lemma oDiv_entry_control : (nl_entry oDiv nlp0 [0] nls0).control = true := by
  norm_num [nl_entry, set_linear_solution, F_function_curr, calculate_hatIy,
    currents_from_hatIy, assign_currents_solve_GS, assign_currents_eq2,
    calculate_rel_tolerance_currents, calculate_rel_tolerance_GS,
    oDiv, nlp0, nls0, vadd, vsub, vabs, vscale, vlast, lmax, lmin, maxAbs, anyGt]

/-- With `oDiv`, the state after the first cycle still fails the tolerance. -/
lemma oDiv_cycle_control :
    (nl_cycle oDiv nlp0 [0] (nl_entry oDiv nlp0 [0] nls0)).control = true := by
  norm_num [nl_entry, nl_cycle, set_linear_solution, F_function_curr, F_function_psi,
    calculate_hatIy, currents_from_hatIy, hatIy1_iterative_cycle,
    assign_currents_solve_GS, assign_currents_eq2, nl_run_psi_arnoldi,
    nl_run_curr_arnoldi, calculate_rel_tolerance_currents, calculate_rel_tolerance_GS,
    oDiv, nlp0, nls0, vadd, vsub, vabs, vscale, vlast, lmax, lmin, maxAbs, anyGt]

set_option maxHeartbeats 1000000 in
/-- With `oDiv`, the state after the first cycle is a fixed point of the loop
body: the residuals are recomputed to the same values each cycle. -/
lemma oDiv_cycle_fixpoint :
    nl_cycle oDiv nlp0 [0] (nl_cycle oDiv nlp0 [0] (nl_entry oDiv nlp0 [0] nls0))
      = nl_cycle oDiv nlp0 [0] (nl_entry oDiv nlp0 [0] nls0) := by
  norm_num [nl_entry, nl_cycle, set_linear_solution, F_function_curr, F_function_psi,
    calculate_hatIy, currents_from_hatIy, hatIy1_iterative_cycle,
    assign_currents_solve_GS, assign_currents_eq2, nl_run_psi_arnoldi,
    nl_run_curr_arnoldi, calculate_rel_tolerance_currents, calculate_rel_tolerance_GS,
    oDiv, nlp0, nls0, vadd, vsub, vabs, vscale, vlast, lmax, lmin, maxAbs, anyGt]

/-- C1 counterexample: a concrete call to `nlstepper` (`linear_only=False`,
default tolerances, concrete sub-solver behaviour under which the simplified
circuit solver keeps returning currents one unit away from the trial values
and both NK updates return zero) on which the outer `while control:` loop
never exits: the stepper iterates indefinitely instead of stopping at an
iteration cap and returning a non-converged status. -/
theorem nlstepper_not_terminating : ¬ nl_terminates oDiv nlp0 [0] nls0 := by
  rintro ⟨fuel, hs⟩
  cases fuel with
  | zero =>
    rw [nl_loop, if_pos oDiv_entry_control] at hs
    simp at hs
  | succ n =>
    rw [nl_loop, if_pos oDiv_entry_control,
      nl_loop_none_of_fixpoint oDiv nlp0 [0] _ oDiv_cycle_fixpoint oDiv_cycle_control n] at hs
    simp at hs

/-- With the `oConv` sub-solver behaviour, the entry current residual is zero
(so the loop is skipped) while the entry GS relative residual is 1/2. -/
lemma oConv_entry_facts :
    (nl_entry oConv nlp0 [0] nls0).control = false ∧
    (nl_entry oConv nlp0 [0] nls0).r_res_GS = 1/2 := by
  norm_num [nl_entry, set_linear_solution, F_function_curr, calculate_hatIy,
    currents_from_hatIy, assign_currents_solve_GS, assign_currents_eq2,
    calculate_rel_tolerance_currents, calculate_rel_tolerance_GS,
    oConv, oDiv, nlp0, nls0, vadd, vsub, vabs, vscale, vlast, lmax, lmin, maxAbs, anyGt]

/-- With `oConv`, the stepper returns at once: the loop is skipped and the
entry state is committed. -/
lemma oConv_stepper_commits :
    nlstepper_nonlinear oConv nlp0 [0] 0 nls0
      = some (step_complete_assign oConv nlp0 (nl_entry oConv nlp0 [0] nls0) false) := by
  rw [nlstepper_nonlinear, nl_loop, if_neg (by simp [oConv_entry_facts.1])]
  rfl

/-- C3 counterexample: a concrete `nlstepper` call on which convergence is
declared before the first cycle — the step is committed — although the
relative GS flux residual (1/2) exceeds `target_relative_tol_GS` (1/200):
the entry check consults only the current residuals, so "convergence iff
both conditions hold" is false as stated. -/
theorem nlstepper_entry_skips_GS_check :
    (nl_entry oConv nlp0 [0] nls0).control = false ∧
    nlp0.target_relative_tol_GS < (nl_entry oConv nlp0 [0] nls0).r_res_GS ∧
    nlstepper_nonlinear oConv nlp0 [0] 0 nls0
      = some (step_complete_assign oConv nlp0 (nl_entry oConv nlp0 [0] nls0) false) := by
  refine ⟨oConv_entry_facts.1, ?_, oConv_stepper_commits⟩
  rw [oConv_entry_facts.2]
  norm_num [nlp0]

/-- Witness for C1: a run that does reach the tolerances; the theorem applied
to it exhibits the converged exit state. -/
theorem nlstepper_returns_only_converged_witness :
    nlstepper_nonlinear oConv nlp0 [0] 0 nls0
      = some (step_complete_assign oConv nlp0 (nl_entry oConv nlp0 [0] nls0) false) ∧
    (∃ sE, nl_loop oConv nlp0 [0] 0 (nl_entry oConv nlp0 [0] nls0) = some sE ∧
      sE.control = false ∧
      step_complete_assign oConv nlp0 (nl_entry oConv nlp0 [0] nls0) false
        = step_complete_assign oConv nlp0 sE false) :=
  ⟨oConv_stepper_commits,
   nlstepper_returns_only_converged oConv nlp0 [0] 0 nls0 _ oConv_stepper_commits⟩

/-- Witness for C8 on the same converging run. -/
theorem nlstepper_durable_frame_witness :
    nlstepper_nonlinear oConv nlp0 [0] 0 nls0
      = some (step_complete_assign oConv nlp0 (nl_entry oConv nlp0 [0] nls0) false) ∧
    (∃ sE, nl_loop oConv nlp0 [0] 0 (nl_entry oConv nlp0 [0] nls0) = some sE ∧
      sE.control = false ∧ durable sE = durable nls0 ∧
      step_complete_assign oConv nlp0 (nl_entry oConv nlp0 [0] nls0) false
        = step_complete_assign oConv nlp0 sE false) :=
  ⟨oConv_stepper_commits,
   (nlstepper_durable_frame oConv nlp0 [0] 0 nls0
      (step_complete_assign oConv nlp0 (nl_entry oConv nlp0 [0] nls0) false)).2.2.2.1
     oConv_stepper_commits⟩
